import Mathlib

/-!
Shallow embedding of `furious/extras/appengine/ndb_persistence.py`.

The App Engine `ndb` datastore is modelled as three key-indexed partial maps,
one per entity kind (`FuriousContext`, `FuriousAsyncMarker`,
`FuriousCompletionMarker`).  Keys are drawn from an arbitrary type `α` with
decidable equality (ids are opaque strings in the source; the two marker kinds
and the context kind live in distinct key namespaces, hence three separate
maps).  Each Python function that touches the datastore becomes a pure
function from the datastore (plus its arguments) to its result and, where it
writes, the updated datastore.  `random.shuffle` is modelled by an explicit
reordering function supplied as an argument; theorems assume only that it
permutes its input.
-/

/-- The in-memory `furious.context.Context`.  Modelled from the spec: the
class lives in `furious.context`, outside this module; the spec requires an
id, the list of spawned task ids, and round-trip-faithful serialization, so
only those two fields are modelled. -/
structure Context (α : Type) where
  id : α
  task_ids : List α
deriving DecidableEq

/-- Modelled from the spec: `Context.to_dict` serializes a context; the spec
only requires round-trip fidelity (`deserialize(serialize(x)) == x`), so the
serialized dict is represented by the context value itself. -/
def Context.to_dict {α : Type} (c : Context α) : Context α := c

/-- Modelled from the spec: `Context.from_dict`, inverse of
`Context.to_dict`. -/
def Context.from_dict {α : Type} (d : Context α) : Context α := d

/-- `FuriousContext`: NDB entity storing a Furious Context as JSON in its
`context` property. -/
structure FuriousContext (α : Type) where
  context : Context α
deriving DecidableEq

/-- `FuriousAsyncMarker`: entity serving as a per-async 'complete' marker.
Its `result` JsonProperty is `none` for a bare marker and `some s` when a
serialized result payload `s` was stored. -/
structure FuriousAsyncMarker where
  result : Option String
deriving DecidableEq

/-- `FuriousCompletionMarker`: entity serving as the per-context completion
gate, with a boolean `complete` property (ndb default `False`). -/
structure FuriousCompletionMarker where
  complete : Bool
deriving DecidableEq

/-- `FuriousContextNotFoundError`: raised when no `FuriousContext` entity is
stored under the requested id. -/
structure FuriousContextNotFoundError (α : Type) where
  id : α
deriving DecidableEq

/-- The ndb datastore state: one partial map per entity kind. -/
structure Datastore (α : Type) where
  contexts : α → Option (FuriousContext α)
  asyncMarkers : α → Option FuriousAsyncMarker
  completionMarkers : α → Option FuriousCompletionMarker

variable {α β : Type} [DecidableEq α]

/-- Point update of a key-indexed partial map (an ndb `put` stores under the
entity's key; a delete stores `none`). -/
def upd (f : α → Option β) (k : α) (v : Option β) : α → Option β :=
  fun x => if x = k then v else f x

@[simp] lemma upd_same (f : α → Option β) (k : α) (v : Option β) : upd f k v k = v := by
  simp [upd]

@[simp] lemma upd_other (f : α → Option β) (k : α) (v : Option β) (x : α) (h : x ≠ k) :
    upd f k v x = f x := by
  simp [upd, h]

/-- `FuriousContext.from_context`: build the entity from a context (stored
under key `context.id` by `store_context`). -/
def FuriousContext.from_context (c : Context α) : FuriousContext α :=
  ⟨Context.to_dict c⟩

/-- `FuriousContext.from_id`: load the entity by id and instantiate the
Context it stores; raises `FuriousContextNotFoundError` when absent. -/
def FuriousContext.from_id (ds : Datastore α) (id : α) :
    Except (FuriousContextNotFoundError α) (Context α) :=
  match ds.contexts id with
  | none => .error ⟨id⟩
  | some entity => .ok (Context.from_dict entity.context)

/-- `load_context`: load a Context object by its id. -/
def load_context (ds : Datastore α) (id : α) :
    Except (FuriousContextNotFoundError α) (Context α) :=
  FuriousContext.from_id ds id

/-- `store_context`: persist the context entity together with a fresh
`FuriousCompletionMarker(id=context.id)` (whose `complete` takes the ndb
default `False`) via one `put_multi`. -/
def store_context (ds : Datastore α) (context : Context α) : Datastore α :=
  { ds with
    contexts := upd ds.contexts context.id (some (FuriousContext.from_context context)),
    completionMarkers := upd ds.completionMarkers context.id (some ⟨false⟩) }

/-- `store_async_result`: unconditionally `put` a `FuriousAsyncMarker` under
`async_id` carrying the serialized result (`json.dumps` is applied by the
caller side of this model: results are passed already serialized). -/
def store_async_result (ds : Datastore α) (async_id : α) (async_result : String) :
    Datastore α :=
  { ds with asyncMarkers := upd ds.asyncMarkers async_id (some ⟨some async_result⟩) }

/-- `store_async_marker`: persist a marker indicating the async ran; if a
marker already exists for `async_id`, return without writing, else `put` a
bare marker. -/
def store_async_marker (ds : Datastore α) (async_id : α) : Datastore α :=
  match ds.asyncMarkers async_id with
  | some _ => ds
  | none => { ds with asyncMarkers := upd ds.asyncMarkers async_id (some ⟨none⟩) }

/-- `_mark_context_complete(marker, context)`: transactionally complete the
context.  `marker` is the prefetched entity argument; inside the transaction
`current = marker.key.get()` re-reads the store at the marker's key (the
context id).  Returns the `first_complete` flag and the resulting store. -/
def _mark_context_complete (ds : Datastore α) (marker : Option FuriousCompletionMarker)
    (context : Context α) (cid : α) : Bool × Datastore α :=
  match marker with
  | none => (false, ds)
  | some _ =>
    match ds.completionMarkers cid with
    | none => (false, ds)
    | some current =>
      if current.complete then (false, ds)
      else (true, { ds with completionMarkers := upd ds.completionMarkers cid (some ⟨true⟩) })

/-- One sequential gate invocation as `_completion_checker` performs it:
fetch the `FuriousCompletionMarker` by id and hand it to
`_mark_context_complete`. -/
def try_complete (ds : Datastore α) (cid : α) (context : Context α) : Bool × Datastore α :=
  _mark_context_complete ds (ds.completionMarkers cid) context cid

/-- `n` sequential gate invocations for the same context id, threading the
store; returns the list of boolean results and the final store. -/
def try_complete_seq (ds : Datastore α) (cid : α) (context : Context α) :
    Nat → List Bool × Datastore α
  | 0 => ([], ds)
  | n + 1 =>
    let r := try_complete ds cid context
    let rest := try_complete_seq r.2 cid context n
    (r.1 :: rest.1, rest.2)

/-- `_cleanup_markers`: `delete_multi` of the `FuriousAsyncMarker` key of
every id in `task_ids` plus the `FuriousCompletionMarker` key of
`context_id`. -/
def _cleanup_markers (ds : Datastore α) (context_id : α) (task_ids : List α) : Datastore α :=
  { ds with
    asyncMarkers := fun k => if k ∈ task_ids then none else ds.asyncMarkers k,
    completionMarkers := upd ds.completionMarkers context_id none }

/-- Truthiness of one `ndb.get_multi` slot: the batch check `all(markers)`
passes on a slot exactly when an entity (not `None`) came back. -/
def markerPresent (ds : Datastore α) (id : α) : Bool :=
  (ds.asyncMarkers id).isSome

/-- The batches `task_ids[index:index+offset]` visited by
`for index in xrange(0, len(task_ids), offset)`.  The loop runs at most
`len(task_ids)` iterations (for a positive step), so the list length serves
as structural fuel; the fuel-zero and step-zero branches are unreachable
under the preconditions of every theorem below (`xrange` with step 0 raises
in Python). -/
def chunksF : Nat → Nat → List α → List (List α)
  | _, _, [] => []
  | _, 0, _ :: _ => []
  | 0, _ + 1, _ :: _ => []
  | fuel + 1, o + 1, x :: xs => (x :: xs).take (o + 1) :: chunksF fuel (o + 1) (xs.drop o)

/-- The batch slices probed by `_check_markers(task_ids, offset)`. -/
def chunks (offset : Nat) (l : List α) : List (List α) :=
  chunksF l.length offset l

/-- Fueled body of `_check_markers`: walk the batches; on each batch do one
`ndb.get_multi` and stop with `False` on the first batch whose results are
not all present.  Returns the flag together with the list of batches that
were actually probed. -/
def checkF (ds : Datastore α) : Nat → Nat → List α → Bool × List (List α)
  | _, _, [] => (true, [])
  | _, 0, _ :: _ => (true, [])
  | 0, _ + 1, _ :: _ => (true, [])
  | fuel + 1, o + 1, x :: xs =>
    let batch := (x :: xs).take (o + 1)
    if batch.all (markerPresent ds) then
      let r := checkF ds fuel (o + 1) (xs.drop o)
      (r.1, batch :: r.2)
    else
      (false, [batch])

/-- `_check_markers` on an already-shuffled id list: the returned flag plus
the trace of probed batches. -/
def check_markers_trace (ds : Datastore α) (offset : Nat) (l : List α) :
    Bool × List (List α) :=
  checkF ds l.length offset l

/-- `_check_markers(task_ids, offset)`: shuffles `task_ids` (the in-place
`random.shuffle` is modelled by the explicit `shuffle` argument), then probes
the markers batch by batch. -/
def _check_markers (shuffle : List α → List α) (ds : Datastore α)
    (task_ids : List α) (offset : Nat) : Bool :=
  (check_markers_trace ds offset (shuffle task_ids)).1

/-- Truthiness of `marker and marker.complete` on the prefetched gate
entity. -/
def markerComplete (marker : Option FuriousCompletionMarker) : Bool :=
  match marker with
  | some m => m.complete
  | none => false

/-- The cleanup task `Async(_cleanup_markers, args=[context_id, task_ids],
task_args countdown)` that `_insert_post_complete_tasks` schedules. -/
structure CleanupTask (α : Type) where
  context_id : α
  task_ids : List α
  countdown : Nat
deriving DecidableEq

/-- `_insert_post_complete_tasks(context)`: invoke the context's registered
'complete' event handler (`context.exec_event_handler`), recorded by the
boolean, then schedule the cleanup task for `context.id` and
`context.task_ids` with a 7200 countdown. -/
def _insert_post_complete_tasks (context : Context α) : Bool × CleanupTask α :=
  (true, ⟨context.id, context.task_ids, 7200⟩)

/-- How one `_completion_checker` run ended: `noContext` and
`alreadyComplete` model the bare `return` (Python `None`), `notFound` the
raised `FuriousContextNotFoundError`, `notComplete` the `return False`, and
`checked` the final `return True` (reached whether or not this invocation won
the gate). -/
inductive CheckerResult (α : Type) where
  | noContext : CheckerResult α
  | notFound : FuriousContextNotFoundError α → CheckerResult α
  | alreadyComplete : CheckerResult α
  | notComplete : CheckerResult α
  | checked : CheckerResult α
deriving DecidableEq

/-- Everything observable about one `_completion_checker` run: its return
value, the resulting datastore, the batches handed to `ndb.get_multi` by
`_check_markers`, the `first_complete` flag when `_mark_context_complete` was
invoked, whether `exec_event_handler('complete')` fired, and the scheduled
cleanup task if any. -/
structure CheckerOutcome (α : Type) where
  result : CheckerResult α
  ds : Datastore α
  probed : List (List α)
  gateResult : Option Bool
  handlerFired : Bool
  cleanup : Option (CleanupTask α)

/-- `_completion_checker(async_id, context_id)`.  The context object's
`task_ids` list is mutated in place by `task_ids.remove(async_id)` (guarded
by membership — `List.erase` removes the first occurrence when present and is
the identity otherwise) and then by `shuffle` inside `_check_markers`; the
same mutated object flows into `_insert_post_complete_tasks`, which is why
the winner schedules cleanup over the shuffled, trigger-less id list. -/
def _completion_checker (shuffle : List α → List α) (ds : Datastore α)
    (async_id : α) (context_id : Option α) : CheckerOutcome α :=
  match context_id with
  | none => ⟨.noContext, ds, [], none, false, none⟩
  | some cid =>
    match ds.contexts cid with
    | none => ⟨.notFound ⟨cid⟩, ds, [], none, false, none⟩
    | some entity =>
      let context := Context.from_dict entity.context
      let marker := ds.completionMarkers cid
      if markerComplete marker then
        ⟨.alreadyComplete, ds, [], none, false, none⟩
      else
        let task_ids := context.task_ids.erase async_id
        let shuffled := shuffle task_ids
        let probe := check_markers_trace ds 10 shuffled
        if probe.1 then
          let gate := _mark_context_complete ds marker context cid
          if gate.1 then
            let post := _insert_post_complete_tasks { context with task_ids := shuffled }
            ⟨.checked, gate.2, probe.2, some true, post.1, some post.2⟩
          else
            ⟨.checked, gate.2, probe.2, some false, false, none⟩
        else
          ⟨.notComplete, ds, probe.2, none, false, none⟩



lemma markerPresent_false {ds : Datastore α} {id : α}
    (h : ¬ markerPresent ds id = true) : ds.asyncMarkers id = none := by
  rcases hx : ds.asyncMarkers id with _ | m
  · rfl
  · exact absurd (by simp [markerPresent, hx]) h

lemma checkF_true_iff (ds : Datastore α) (o : Nat) :
    ∀ (fuel : Nat) (l : List α), l.length ≤ fuel →
      ((checkF ds fuel (o + 1) l).1 = true ↔ ∀ id ∈ l, markerPresent ds id = true) := by
  intro fuel
  induction fuel with
  | zero =>
    intro l h
    have hl : l = [] := List.length_eq_zero.mp (Nat.le_zero.mp h)
    subst hl
    simp [checkF]
  | succ fuel ih =>
    intro l h
    match l with
    | [] => simp [checkF]
    | x :: xs =>
      have hlen : (xs.drop o).length ≤ fuel := by
        simp only [List.length_drop]
        simp only [List.length_cons] at h
        omega
      by_cases hb : ((x :: xs).take (o + 1)).all (markerPresent ds) = true
      · simp only [checkF, if_pos hb]
        rw [ih _ hlen]
        constructor
        · intro hd id hid
          rw [← List.take_append_drop (o + 1) (x :: xs)] at hid
          rcases List.mem_append.mp hid with h1 | h2
          · exact List.all_eq_true.mp hb id h1
          · rw [List.drop_succ_cons] at h2
            exact hd id h2
        · intro hall id hid
          exact hall id (List.mem_cons_of_mem x (List.mem_of_mem_drop hid))
      · obtain ⟨id, hid, hnp⟩ : ∃ id ∈ (x :: xs).take (o + 1), ¬ markerPresent ds id = true := by
          rw [List.all_eq_true] at hb
          push_neg at hb
          exact hb
        simp only [checkF, if_neg hb]
        constructor
        · intro hfalse
          simp at hfalse
        · intro hall
          exact absurd (hall id (List.mem_of_mem_take hid)) hnp

lemma chunksF_flatten (o : Nat) :
    ∀ (fuel : Nat) (l : List α), l.length ≤ fuel →
      (chunksF fuel (o + 1) l).flatten = l := by
  intro fuel
  induction fuel with
  | zero =>
    intro l h
    have hl : l = [] := List.length_eq_zero.mp (Nat.le_zero.mp h)
    subst hl
    simp [chunksF]
  | succ fuel ih =>
    intro l h
    match l with
    | [] => simp [chunksF]
    | x :: xs =>
      have hlen : (xs.drop o).length ≤ fuel := by
        simp only [List.length_drop]
        simp only [List.length_cons] at h
        omega
      simp only [chunksF, List.flatten_cons, ih _ hlen]
      rw [← List.drop_succ_cons (l := xs) (n := o)]
      exact List.take_append_drop (o + 1) (x :: xs)

lemma checkF_true_trace (ds : Datastore α) (o : Nat) :
    ∀ (fuel : Nat) (l : List α), l.length ≤ fuel →
      (checkF ds fuel (o + 1) l).1 = true →
      (checkF ds fuel (o + 1) l).2 = chunksF fuel (o + 1) l := by
  intro fuel
  induction fuel with
  | zero =>
    intro l h _
    have hl : l = [] := List.length_eq_zero.mp (Nat.le_zero.mp h)
    subst hl
    simp [checkF, chunksF]
  | succ fuel ih =>
    intro l h htrue
    match l with
    | [] => simp [checkF, chunksF]
    | x :: xs =>
      have hlen : (xs.drop o).length ≤ fuel := by
        simp only [List.length_drop]
        simp only [List.length_cons] at h
        omega
      by_cases hb : ((x :: xs).take (o + 1)).all (markerPresent ds) = true
      · simp only [checkF, if_pos hb] at htrue ⊢
        simp only [chunksF]
        rw [ih _ hlen htrue]
      · simp only [checkF, if_neg hb] at htrue
        cases htrue

lemma checkF_false_shape (ds : Datastore α) (o : Nat) :
    ∀ (fuel : Nat) (l : List α), l.length ≤ fuel →
      (checkF ds fuel (o + 1) l).1 = false →
      ∃ pre bad post,
        chunksF fuel (o + 1) l = pre ++ bad :: post
        ∧ (checkF ds fuel (o + 1) l).2 = pre ++ [bad]
        ∧ (∀ c ∈ pre, ∀ id ∈ c, markerPresent ds id = true)
        ∧ ∃ id ∈ bad, ds.asyncMarkers id = none := by
  intro fuel
  induction fuel with
  | zero =>
    intro l h hfalse
    have hl : l = [] := List.length_eq_zero.mp (Nat.le_zero.mp h)
    subst hl
    simp [checkF] at hfalse
  | succ fuel ih =>
    intro l h hfalse
    match l with
    | [] => simp [checkF] at hfalse
    | x :: xs =>
      have hlen : (xs.drop o).length ≤ fuel := by
        simp only [List.length_drop]
        simp only [List.length_cons] at h
        omega
      by_cases hb : ((x :: xs).take (o + 1)).all (markerPresent ds) = true
      · simp only [checkF, if_pos hb] at hfalse ⊢
        obtain ⟨pre, bad, post, hc, ht, hpre, hbad⟩ := ih _ hlen hfalse
        refine ⟨(x :: xs).take (o + 1) :: pre, bad, post, ?_, ?_, ?_, hbad⟩
        · simp only [chunksF, hc, List.cons_append]
        · simp only [ht, List.cons_append]
        · intro c hc' id hid
          rcases List.mem_cons.mp hc' with rfl | hc''
          · exact List.all_eq_true.mp hb id hid
          · exact hpre c hc'' id hid
      · obtain ⟨id, hid, hnp⟩ : ∃ id ∈ (x :: xs).take (o + 1), ¬ markerPresent ds id = true := by
          rw [List.all_eq_true] at hb
          push_neg at hb
          exact hb
        simp only [checkF, if_neg hb]
        exact ⟨[], (x :: xs).take (o + 1), chunksF fuel (o + 1) (xs.drop o),
          by simp [chunksF], by simp, by simp, id, hid, markerPresent_false hnp⟩

lemma checkF_flatten_prefix (ds : Datastore α) (o : Nat) :
    ∀ (fuel : Nat) (l : List α), l.length ≤ fuel →
      ∃ t, (checkF ds fuel (o + 1) l).2.flatten ++ t = l := by
  intro fuel
  induction fuel with
  | zero =>
    intro l h
    have hl : l = [] := List.length_eq_zero.mp (Nat.le_zero.mp h)
    subst hl
    exact ⟨[], by simp [checkF]⟩
  | succ fuel ih =>
    intro l h
    match l with
    | [] => exact ⟨[], by simp [checkF]⟩
    | x :: xs =>
      have hlen : (xs.drop o).length ≤ fuel := by
        simp only [List.length_drop]
        simp only [List.length_cons] at h
        omega
      by_cases hb : ((x :: xs).take (o + 1)).all (markerPresent ds) = true
      · obtain ⟨t, ht⟩ := ih _ hlen
        refine ⟨t, ?_⟩
        simp only [checkF, if_pos hb, List.flatten_cons, List.append_assoc, ht]
        rw [← List.drop_succ_cons (l := xs) (n := o)]
        exact List.take_append_drop (o + 1) (x :: xs)
      · refine ⟨xs.drop o, ?_⟩
        simp only [checkF, if_neg hb, List.flatten_cons, List.flatten_nil, List.append_nil]
        rw [← List.drop_succ_cons (l := xs) (n := o)]
        exact List.take_append_drop (o + 1) (x :: xs)

lemma try_complete_missing (ds : Datastore α) (cid : α) (c : Context α)
    (h : ds.completionMarkers cid = none) : try_complete ds cid c = (false, ds) := by
  simp [try_complete, _mark_context_complete, h]

lemma try_complete_already (ds : Datastore α) (cid : α) (c : Context α)
    (h : ds.completionMarkers cid = some ⟨true⟩) : try_complete ds cid c = (false, ds) := by
  simp [try_complete, _mark_context_complete, h]

lemma try_complete_flip (ds : Datastore α) (cid : α) (c : Context α)
    (h : ds.completionMarkers cid = some ⟨false⟩) :
    try_complete ds cid c =
      (true, { ds with completionMarkers := upd ds.completionMarkers cid (some ⟨true⟩) }) := by
  simp [try_complete, _mark_context_complete, h]

lemma try_complete_seq_stuck (cid : α) (c : Context α) :
    ∀ (n : Nat) (ds : Datastore α),
      (ds.completionMarkers cid = none ∨ ds.completionMarkers cid = some ⟨true⟩) →
      try_complete_seq ds cid c n = (List.replicate n false, ds) := by
  intro n
  induction n with
  | zero => intro ds _; simp [try_complete_seq]
  | succ n ih =>
    intro ds h
    have hstep : try_complete ds cid c = (false, ds) := by
      rcases h with h | h
      · exact try_complete_missing ds cid c h
      · exact try_complete_already ds cid c h
    simp [try_complete_seq, hstep, ih ds h, List.replicate_succ]

lemma try_complete_seq_win (cid : α) (c : Context α) (n : Nat) (ds : Datastore α)
    (h : ds.completionMarkers cid = some ⟨false⟩) :
    (try_complete_seq ds cid c (n + 1)).1 = true :: List.replicate n false := by
  have hstep := try_complete_flip ds cid c h
  have hafter :
      ({ ds with completionMarkers := upd ds.completionMarkers cid (some ⟨true⟩) } :
        Datastore α).completionMarkers cid = some ⟨true⟩ := by
    simp
  simp [try_complete_seq, hstep, try_complete_seq_stuck cid c n _ (Or.inr hafter)]

/-- C1: for every context id, the completion gate (`_mark_context_complete`,
invoked as `_completion_checker` invokes it, on the freshly fetched
`FuriousCompletionMarker`) returns true on exactly one of any number of
sequential invocations — the one performing the false-to-true write — and
false on all others; in particular it returns false when the marker is
missing and false when the marker is already complete. -/
theorem try_complete_exactly_once (ds : Datastore α) (cid : α) (c : Context α) (n : Nat) :
    (ds.completionMarkers cid = some ⟨false⟩ →
      (try_complete_seq ds cid c (n + 1)).1 = true :: List.replicate n false)
    ∧ ((ds.completionMarkers cid = none ∨ ds.completionMarkers cid = some ⟨true⟩) →
      (try_complete_seq ds cid c n).1 = List.replicate n false)
    ∧ (ds.completionMarkers cid = none → (try_complete ds cid c).1 = false)
    ∧ (ds.completionMarkers cid = some ⟨true⟩ → (try_complete ds cid c).1 = false)
    ∧ ((try_complete ds cid c).1 = true ↔
        ds.completionMarkers cid = some ⟨false⟩
          ∧ (try_complete ds cid c).2.completionMarkers cid = some ⟨true⟩) := by
  refine ⟨fun h => try_complete_seq_win cid c n ds h,
    fun h => by rw [try_complete_seq_stuck cid c n ds h],
    fun h => by rw [try_complete_missing ds cid c h],
    fun h => by rw [try_complete_already ds cid c h], ?_⟩
  rcases h : ds.completionMarkers cid with _ | m
  · rw [try_complete_missing ds cid c h]
    simp [h]
  · obtain ⟨b⟩ := m
    cases b
    · rw [try_complete_flip ds cid c h]
      simp [h]
    · rw [try_complete_already ds cid c h]
      simp [h]

/-- Concrete store for witnesses: the completion gate for context id `0`
exists and is still incomplete; no other entities. -/
def dsGate : Datastore Nat :=
  ⟨fun _ => none, fun _ => none, fun k => if k = 0 then some ⟨false⟩ else none⟩

/-- Concrete in-memory context for witnesses. -/
def ctx0 : Context Nat := ⟨0, []⟩

/-- Witness for C1: from a present-and-incomplete gate, three sequential
invocations return true then false twice. -/
theorem try_complete_exactly_once_witness :
    (try_complete_seq dsGate 0 ctx0 3).1 = true :: List.replicate 2 false :=
  (try_complete_exactly_once dsGate 0 ctx0 2).1 (by decide)

lemma store_async_marker_existing (ds : Datastore α) (id : α) (m : FuriousAsyncMarker)
    (h : ds.asyncMarkers id = some m) : store_async_marker ds id = ds := by
  simp [store_async_marker, h]

lemma store_async_marker_some (ds : Datastore α) (id : α) :
    ∃ m, (store_async_marker ds id).asyncMarkers id = some m := by
  rcases h : ds.asyncMarkers id with _ | m
  · exact ⟨⟨none⟩, by simp [store_async_marker, h]⟩
  · exact ⟨m, by simp [store_async_marker, h]⟩

lemma store_async_marker_idem (ds : Datastore α) (id : α) :
    store_async_marker (store_async_marker ds id) id = store_async_marker ds id := by
  obtain ⟨m, hm⟩ := store_async_marker_some ds id
  exact store_async_marker_existing _ id m hm

/-- C2: `store_async_marker` is idempotent — `n ≥ 1` calls for the same
`async_id` leave the store exactly as one call does, and a call that finds an
existing marker returns without modifying anything.  (The function is total
in this model: it never raises.) -/
theorem store_async_marker_idempotent (ds : Datastore α) (async_id : α) (n : Nat)
    (h : 1 ≤ n) :
    (fun s => store_async_marker s async_id)^[n] ds = store_async_marker ds async_id
    ∧ (∀ m, ds.asyncMarkers async_id = some m → store_async_marker ds async_id = ds) := by
  constructor
  · obtain ⟨k, rfl⟩ : ∃ k, n = k + 1 := ⟨n - 1, by omega⟩
    clear h
    induction k with
    | zero => simp
    | succ k ih =>
      rw [Function.iterate_succ_apply', ih]
      exact store_async_marker_idem ds async_id
  · intro m hm
    exact store_async_marker_existing ds async_id m hm

/-- Concrete store for witnesses: a bare `FuriousAsyncMarker` exists for
async id `5`. -/
def dsMark : Datastore Nat :=
  ⟨fun _ => none, fun k => if k = 5 then some ⟨none⟩ else none, fun _ => none⟩

/-- Witness for C2: three calls leave `dsMark` as one call does. -/
theorem store_async_marker_idempotent_witness :
    (fun s => store_async_marker s 5)^[3] dsMark = store_async_marker dsMark 5 :=
  (store_async_marker_idempotent dsMark 5 3 (by decide)).1

/-- C6: `load_context` raises `FuriousContextNotFoundError` exactly when no
`FuriousContext` entity is stored under the id; when one exists it returns
the deserialized in-memory context without raising. -/
theorem load_context_not_found_iff (ds : Datastore α) (id : α) :
    ((∃ e, load_context ds id = .error e) ↔ ds.contexts id = none)
    ∧ (∀ entity, ds.contexts id = some entity →
        load_context ds id = .ok (Context.from_dict entity.context)) := by
  constructor
  · rcases h : ds.contexts id with _ | entity
    · simp [load_context, FuriousContext.from_id, h]
    · simp [load_context, FuriousContext.from_id, h]
  · intro entity he
    simp [load_context, FuriousContext.from_id, he]

/-- Concrete store for checker witnesses: context `0` spawned asyncs `1` and
`2`; async `2` already has a marker; the gate exists and is incomplete. -/
def dsRun : Datastore Nat :=
  ⟨fun k => if k = 0 then some ⟨⟨0, [1, 2]⟩⟩ else none,
   fun k => if k = 2 then some ⟨none⟩ else none,
   fun k => if k = 0 then some ⟨false⟩ else none⟩

/-- Witness for C6: loading stored context `0` from `dsRun` succeeds with the
deserialized context. -/
theorem load_context_not_found_iff_witness :
    load_context dsRun 0 = .ok (Context.from_dict ⟨0, [1, 2]⟩) :=
  (load_context_not_found_iff dsRun 0).2 ⟨⟨0, [1, 2]⟩⟩ (by decide)

/-- C10: `store_context` always writes a fresh `FuriousCompletionMarker`
with `complete = false` for `context.id`; thus a previously fired gate
(`complete = true`) is reset to incomplete and `try_complete` can win again,
so the false-to-true at-most-once transition is not preserved across
`store_context` calls. -/
theorem store_context_resets_gate (ds : Datastore α) (c : Context α) :
    (store_context ds c).completionMarkers c.id = some ⟨false⟩
    ∧ (ds.completionMarkers c.id = some ⟨true⟩ →
        (try_complete (store_context ds c) c.id c).1 = true)
    ∧ (ds.completionMarkers c.id = some ⟨false⟩ →
        (try_complete ds c.id c).1 = true
          ∧ (try_complete (store_context (try_complete ds c.id c).2 c) c.id c).1 = true) := by
  have hfresh : (store_context ds c).completionMarkers c.id = some ⟨false⟩ := by
    simp [store_context]
  refine ⟨hfresh, ?_, ?_⟩
  · intro _
    rw [try_complete_flip _ c.id c hfresh]
  · intro h
    constructor
    · rw [try_complete_flip ds c.id c h]
    · rw [try_complete_flip _ c.id c (by simp [store_context])]

/-- Witness for C10: on `dsGate` (gate present, incomplete, for id `0`) the
gate wins, and after an intervening `store_context` it wins a second time. -/
theorem store_context_resets_gate_witness :
    (try_complete dsGate 0 ctx0).1 = true
    ∧ (try_complete (store_context (try_complete dsGate 0 ctx0).2 ctx0) 0 ctx0).1 = true :=
  (store_context_resets_gate dsGate ctx0).2.2 (by decide)

/-- Concrete store for the C8 counterexample: async id `1` already carries a
marker whose stored serialized result is `"r1"`. -/
def dsRes : Datastore Nat :=
  ⟨fun _ => none, fun k => if k = 1 then some ⟨some "r1"⟩ else none, fun _ => none⟩

/-- Counterexample for C8: `store_async_result` replaces the existing
marker's stored content with different content — the marker for async `1`
held result `"r1"` and afterwards holds `"r2"`. -/
theorem store_async_result_overwrites :
    dsRes.asyncMarkers 1 = some ⟨some "r1"⟩
    ∧ (store_async_result dsRes 1 "r2").asyncMarkers 1 = some ⟨some "r2"⟩
    ∧ (store_async_result dsRes 1 "r2").asyncMarkers 1 ≠ dsRes.asyncMarkers 1 := by
  refine ⟨rfl, ?_, ?_⟩
  · simp [store_async_result]
  · decide

/-- C8 amended: `store_async_marker` never touches an existing marker, but
`store_async_result` unconditionally creates/overwrites the marker for
`async_id` with the new serialized result, replacing any existing content. -/
theorem async_marker_write_spec (ds : Datastore α) (id : α) (r : String) :
    (∀ m, ds.asyncMarkers id = some m → store_async_marker ds id = ds)
    ∧ (store_async_result ds id r).asyncMarkers id = some ⟨some r⟩ := by
  constructor
  · intro m hm
    exact store_async_marker_existing ds id m hm
  · simp [store_async_result]

/-- Witness for the amended C8 on `dsRes`. -/
theorem async_marker_write_spec_witness :
    store_async_marker dsRes 1 = dsRes
    ∧ (store_async_result dsRes 1 "r2").asyncMarkers 1 = some ⟨some "r2"⟩ :=
  ⟨(async_marker_write_spec dsRes 1 "r2").1 ⟨some "r1"⟩ (by decide),
   (async_marker_write_spec dsRes 1 "r2").2⟩

/-- Counterexample for C7: after `_cleanup_markers` deletes both async
markers and the completion marker, `load_context` still succeeds — the
`FuriousContext` entity is never deleted — contradicting the claim that it
then raises a not-found error. -/
theorem cleanup_markers_context_survives :
    (_cleanup_markers dsRun 0 [1, 2]).asyncMarkers 1 = none
    ∧ (_cleanup_markers dsRun 0 [1, 2]).asyncMarkers 2 = none
    ∧ (_cleanup_markers dsRun 0 [1, 2]).completionMarkers 0 = none
    ∧ load_context (_cleanup_markers dsRun 0 [1, 2]) 0 = .ok (Context.from_dict ⟨0, [1, 2]⟩) := by
  refine ⟨rfl, rfl, rfl, rfl⟩

/-- C7 amended: `_cleanup_markers` deletes the `FuriousAsyncMarker` of every
id in `task_ids` plus the `FuriousCompletionMarker` for `context_id`, after
which `_check_markers` over those ids reports markers absent (returns false
for a non-empty id set); the `FuriousContext` entity is untouched, so
`load_context` behaves exactly as before the cleanup. -/
theorem cleanup_markers_spec (ds : Datastore α) (cid : α) (task_ids : List α)
    (offset : Nat) (hoff : 0 < offset) (hne : task_ids ≠ []) :
    (∀ id ∈ task_ids, (_cleanup_markers ds cid task_ids).asyncMarkers id = none)
    ∧ (_cleanup_markers ds cid task_ids).completionMarkers cid = none
    ∧ (check_markers_trace (_cleanup_markers ds cid task_ids) offset task_ids).1 = false
    ∧ (_cleanup_markers ds cid task_ids).contexts = ds.contexts
    ∧ load_context (_cleanup_markers ds cid task_ids) cid = load_context ds cid := by
  obtain ⟨o, rfl⟩ : ∃ o, offset = o + 1 := ⟨offset - 1, by omega⟩
  have hdel : ∀ id ∈ task_ids, (_cleanup_markers ds cid task_ids).asyncMarkers id = none := by
    intro id hid
    simp [_cleanup_markers, hid]
  refine ⟨hdel, by simp [_cleanup_markers], ?_, rfl, rfl⟩
  have hiff := checkF_true_iff (_cleanup_markers ds cid task_ids) o task_ids.length task_ids
    (le_refl _)
  rcases hres : (check_markers_trace (_cleanup_markers ds cid task_ids) (o + 1) task_ids).1 with _ | _
  · rfl
  · exfalso
    rw [check_markers_trace] at hres
    obtain ⟨x, hx⟩ := List.exists_mem_of_ne_nil task_ids hne
    have := hiff.mp hres x hx
    rw [markerPresent, hdel x hx] at this
    cases this

lemma check_markers_trace_true_iff (ds : Datastore α) (offset : Nat) (hoff : 0 < offset)
    (l : List α) :
    ((check_markers_trace ds offset l).1 = true ↔ ∀ id ∈ l, markerPresent ds id = true) := by
  obtain ⟨o, rfl⟩ : ∃ o, offset = o + 1 := ⟨offset - 1, by omega⟩
  exact checkF_true_iff ds o l.length l (le_refl _)

lemma check_markers_trace_true_probes (ds : Datastore α) (offset : Nat) (hoff : 0 < offset)
    (l : List α) :
    (check_markers_trace ds offset l).1 = true →
    (check_markers_trace ds offset l).2 = chunks offset l := by
  obtain ⟨o, rfl⟩ : ∃ o, offset = o + 1 := ⟨offset - 1, by omega⟩
  exact checkF_true_trace ds o l.length l (le_refl _)

lemma check_markers_trace_false_shape (ds : Datastore α) (offset : Nat) (hoff : 0 < offset)
    (l : List α) :
    (check_markers_trace ds offset l).1 = false →
    ∃ pre bad post,
      chunks offset l = pre ++ bad :: post
      ∧ (check_markers_trace ds offset l).2 = pre ++ [bad]
      ∧ (∀ c ∈ pre, ∀ id ∈ c, markerPresent ds id = true)
      ∧ ∃ id ∈ bad, ds.asyncMarkers id = none := by
  obtain ⟨o, rfl⟩ : ∃ o, offset = o + 1 := ⟨offset - 1, by omega⟩
  exact checkF_false_shape ds o l.length l (le_refl _)

lemma check_markers_trace_flatten_prefix (ds : Datastore α) (offset : Nat) (hoff : 0 < offset)
    (l : List α) :
    ∃ t, (check_markers_trace ds offset l).2.flatten ++ t = l := by
  obtain ⟨o, rfl⟩ : ∃ o, offset = o + 1 := ⟨offset - 1, by omega⟩
  exact checkF_flatten_prefix ds o l.length l (le_refl _)

lemma chunks_flatten (offset : Nat) (hoff : 0 < offset) (l : List α) :
    (chunks offset l).flatten = l := by
  obtain ⟨o, rfl⟩ : ∃ o, offset = o + 1 := ⟨offset - 1, by omega⟩
  exact chunksF_flatten o l.length l (le_refl _)

lemma check_markers_true_iff (shuffle : List α → List α) (hs : ∀ l : List α, (shuffle l).Perm l)
    (ds : Datastore α) (task_ids : List α) (offset : Nat) (hoff : 0 < offset) :
    (_check_markers shuffle ds task_ids offset = true ↔
      ∀ id ∈ task_ids, markerPresent ds id = true) := by
  rw [_check_markers, check_markers_trace_true_iff ds offset hoff]
  constructor
  · intro h id hid
    exact h id ((hs task_ids).mem_iff.mpr hid)
  · intro h id hid
    exact h id ((hs task_ids).mem_iff.mp hid)

/-- C3: `_check_markers` returns true iff every id in `task_ids` has a stored
`FuriousAsyncMarker`; when it returns true it probed every batch, and when it
returns false it probed exactly the batches up to and including the first one
containing an id without a marker, leaving the later batches unprobed; and
the boolean outcome does not depend on the shuffled probe order. -/
theorem check_markers_iff_all_present (shuffle : List α → List α) (ds : Datastore α)
    (task_ids : List α) (offset : Nat) (hoff : 0 < offset)
    (hs : ∀ l : List α, (shuffle l).Perm l) :
    (_check_markers shuffle ds task_ids offset = true ↔
      ∀ id ∈ task_ids, (ds.asyncMarkers id).isSome = true)
    ∧ (_check_markers shuffle ds task_ids offset = true →
      (check_markers_trace ds offset (shuffle task_ids)).2 = chunks offset (shuffle task_ids))
    ∧ (_check_markers shuffle ds task_ids offset = false →
      ∃ pre bad post,
        chunks offset (shuffle task_ids) = pre ++ bad :: post
        ∧ (check_markers_trace ds offset (shuffle task_ids)).2 = pre ++ [bad]
        ∧ (∀ c ∈ pre, ∀ id ∈ c, (ds.asyncMarkers id).isSome = true)
        ∧ ∃ id ∈ bad, ds.asyncMarkers id = none)
    ∧ (∀ shuffle2 : List α → List α, (∀ l : List α, (shuffle2 l).Perm l) →
      _check_markers shuffle2 ds task_ids offset = _check_markers shuffle ds task_ids offset) := by
  refine ⟨check_markers_true_iff shuffle hs ds task_ids offset hoff, ?_, ?_, ?_⟩
  · intro h
    exact check_markers_trace_true_probes ds offset hoff (shuffle task_ids) h
  · intro h
    exact check_markers_trace_false_shape ds offset hoff (shuffle task_ids) h
  · intro shuffle2 hs2
    have h1 := check_markers_true_iff shuffle hs ds task_ids offset hoff
    have h2 := check_markers_true_iff shuffle2 hs2 ds task_ids offset hoff
    exact Bool.coe_iff_coe.mp (h2.trans h1.symm)

/-- Witness for C3: with the identity reordering, probing `dsRun` for the
single id `2` (whose marker is stored) reports all markers present. -/
theorem check_markers_iff_all_present_witness :
    _check_markers (fun l => l) dsRun [2] 10 = true :=
  (check_markers_iff_all_present (fun l => l) dsRun [2] 10 (by decide)
    (fun l => List.Perm.refl l)).1.mpr (by decide)

lemma completion_checker_noContext (shuffle : List α → List α) (ds : Datastore α)
    (async_id : α) :
    _completion_checker shuffle ds async_id none = ⟨.noContext, ds, [], none, false, none⟩ := by
  rfl

lemma completion_checker_notFound (shuffle : List α → List α) (ds : Datastore α)
    (async_id cid : α) (hctx : ds.contexts cid = none) :
    _completion_checker shuffle ds async_id (some cid) =
      ⟨.notFound ⟨cid⟩, ds, [], none, false, none⟩ := by
  simp [_completion_checker, hctx]

lemma completion_checker_already (shuffle : List α → List α) (ds : Datastore α)
    (async_id cid : α) (entity : FuriousContext α) (hctx : ds.contexts cid = some entity)
    (hm : markerComplete (ds.completionMarkers cid) = true) :
    _completion_checker shuffle ds async_id (some cid) =
      ⟨.alreadyComplete, ds, [], none, false, none⟩ := by
  simp [_completion_checker, hctx, hm]

lemma completion_checker_notComplete (shuffle : List α → List α) (ds : Datastore α)
    (async_id cid : α) (entity : FuriousContext α) (hctx : ds.contexts cid = some entity)
    (hm : ¬ markerComplete (ds.completionMarkers cid) = true)
    (hp : (check_markers_trace ds 10
        (shuffle ((Context.from_dict entity.context).task_ids.erase async_id))).1 = false) :
    _completion_checker shuffle ds async_id (some cid) =
      ⟨.notComplete, ds,
        (check_markers_trace ds 10
          (shuffle ((Context.from_dict entity.context).task_ids.erase async_id))).2,
        none, false, none⟩ := by
  simp [_completion_checker, hctx, hm, hp]

lemma completion_checker_win (shuffle : List α → List α) (ds : Datastore α)
    (async_id cid : α) (entity : FuriousContext α) (hctx : ds.contexts cid = some entity)
    (hm : ¬ markerComplete (ds.completionMarkers cid) = true)
    (hp : (check_markers_trace ds 10
        (shuffle ((Context.from_dict entity.context).task_ids.erase async_id))).1 = true)
    (hg : (_mark_context_complete ds (ds.completionMarkers cid)
        (Context.from_dict entity.context) cid).1 = true) :
    _completion_checker shuffle ds async_id (some cid) =
      ⟨.checked,
        (_mark_context_complete ds (ds.completionMarkers cid)
          (Context.from_dict entity.context) cid).2,
        (check_markers_trace ds 10
          (shuffle ((Context.from_dict entity.context).task_ids.erase async_id))).2,
        some true, true,
        some ⟨(Context.from_dict entity.context).id,
          shuffle ((Context.from_dict entity.context).task_ids.erase async_id), 7200⟩⟩ := by
  simp [_completion_checker, hctx, hm, hp, hg, _insert_post_complete_tasks]

lemma completion_checker_lose (shuffle : List α → List α) (ds : Datastore α)
    (async_id cid : α) (entity : FuriousContext α) (hctx : ds.contexts cid = some entity)
    (hm : ¬ markerComplete (ds.completionMarkers cid) = true)
    (hp : (check_markers_trace ds 10
        (shuffle ((Context.from_dict entity.context).task_ids.erase async_id))).1 = true)
    (hg : (_mark_context_complete ds (ds.completionMarkers cid)
        (Context.from_dict entity.context) cid).1 = false) :
    _completion_checker shuffle ds async_id (some cid) =
      ⟨.checked,
        (_mark_context_complete ds (ds.completionMarkers cid)
          (Context.from_dict entity.context) cid).2,
        (check_markers_trace ds 10
          (shuffle ((Context.from_dict entity.context).task_ids.erase async_id))).2,
        some false, false, none⟩ := by
  simp [_completion_checker, hctx, hm, hp, hg]

/-- C4: in a completion check, the context's registered 'complete' event
handler fires and a delayed cleanup task is scheduled if and only if the gate
(`_mark_context_complete`) returned true for that invocation, and any
scheduled cleanup task carries the 7200 delay. -/
theorem completion_checker_fires_iff_winner (shuffle : List α → List α) (ds : Datastore α)
    (async_id : α) (context_id : Option α) :
    ((_completion_checker shuffle ds async_id context_id).handlerFired = true ↔
      (_completion_checker shuffle ds async_id context_id).gateResult = some true)
    ∧ ((_completion_checker shuffle ds async_id context_id).cleanup.isSome = true ↔
      (_completion_checker shuffle ds async_id context_id).gateResult = some true)
    ∧ (∀ t, (_completion_checker shuffle ds async_id context_id).cleanup = some t →
      t.countdown = 7200) := by
  rcases context_id with _ | cid
  · rw [completion_checker_noContext]
    simp
  · rcases hctx : ds.contexts cid with _ | entity
    · rw [completion_checker_notFound shuffle ds async_id cid hctx]
      simp
    · by_cases hm : markerComplete (ds.completionMarkers cid) = true
      · rw [completion_checker_already shuffle ds async_id cid entity hctx hm]
        simp
      · by_cases hp : (check_markers_trace ds 10
            (shuffle ((Context.from_dict entity.context).task_ids.erase async_id))).1 = true
        · by_cases hg : (_mark_context_complete ds (ds.completionMarkers cid)
              (Context.from_dict entity.context) cid).1 = true
          · rw [completion_checker_win shuffle ds async_id cid entity hctx hm hp hg]
            refine ⟨by simp, by simp, ?_⟩
            intro t ht
            obtain rfl := Option.some.inj ht
            rfl
          · rw [completion_checker_lose shuffle ds async_id cid entity hctx hm hp
              (Bool.not_eq_true _ ▸ hg)]
            simp
        · rw [completion_checker_notComplete shuffle ds async_id cid entity hctx hm
            (Bool.not_eq_true _ ▸ hp)]
          simp

/-- Witness for C4: on `dsRun` (context `0`, trigger async `1`, sibling `2`
marked, gate incomplete) the checker wins the gate, fires the handler and
schedules cleanup with delay 7200. -/
theorem completion_checker_fires_iff_winner_witness :
    (_completion_checker (fun l => l) dsRun 1 (some 0)).handlerFired = true
    ∧ (_completion_checker (fun l => l) dsRun 1 (some 0)).cleanup.isSome = true
    ∧ (⟨0, [2], 7200⟩ : CleanupTask Nat).countdown = 7200 :=
  ⟨(completion_checker_fires_iff_winner (fun l => l) dsRun 1 (some 0)).1.mpr (by decide),
   (completion_checker_fires_iff_winner (fun l => l) dsRun 1 (some 0)).2.1.mpr (by decide),
   (completion_checker_fires_iff_winner (fun l => l) dsRun 1 (some 0)).2.2 ⟨0, [2], 7200⟩
     (by decide)⟩

/-- C5: in a check invocation the probed ids are drawn from the context's
`task_ids` minus the triggering `async_id` — under distinct task ids the
trigger's marker is never looked up — and when the probe is not
short-circuited (the run returns via the gate) the probed ids are exactly
that difference. -/
theorem completion_checker_probe_set (shuffle : List α → List α) (ds : Datastore α)
    (async_id cid : α) (entity : FuriousContext α)
    (hs : ∀ l : List α, (shuffle l).Perm l)
    (hctx : ds.contexts cid = some entity) :
    ((Context.from_dict entity.context).task_ids.Nodup →
      async_id ∉ (_completion_checker shuffle ds async_id (some cid)).probed.flatten)
    ∧ ((_completion_checker shuffle ds async_id (some cid)).result = .checked →
      ((_completion_checker shuffle ds async_id (some cid)).probed.flatten).Perm
        ((Context.from_dict entity.context).task_ids.erase async_id)) := by
  by_cases hm : markerComplete (ds.completionMarkers cid) = true
  · rw [completion_checker_already shuffle ds async_id cid entity hctx hm]
    constructor
    · intro _
      simp
    · intro hres
      simp at hres
  · have hprobed : (_completion_checker shuffle ds async_id (some cid)).probed =
        (check_markers_trace ds 10
          (shuffle ((Context.from_dict entity.context).task_ids.erase async_id))).2 := by
      by_cases hp : (check_markers_trace ds 10
          (shuffle ((Context.from_dict entity.context).task_ids.erase async_id))).1 = true
      · by_cases hg : (_mark_context_complete ds (ds.completionMarkers cid)
            (Context.from_dict entity.context) cid).1 = true
        · rw [completion_checker_win shuffle ds async_id cid entity hctx hm hp hg]
        · rw [completion_checker_lose shuffle ds async_id cid entity hctx hm hp
            (Bool.not_eq_true _ ▸ hg)]
      · rw [completion_checker_notComplete shuffle ds async_id cid entity hctx hm
          (Bool.not_eq_true _ ▸ hp)]
    constructor
    · intro hnd hmem
      rw [hprobed] at hmem
      obtain ⟨t, ht⟩ := check_markers_trace_flatten_prefix ds 10 (by omega)
        (shuffle ((Context.from_dict entity.context).task_ids.erase async_id))
      have h1 : async_id ∈
          shuffle ((Context.from_dict entity.context).task_ids.erase async_id) := by
        rw [← ht]
        exact List.mem_append.mpr (Or.inl hmem)
      have h2 : async_id ∈ (Context.from_dict entity.context).task_ids.erase async_id :=
        (hs _).mem_iff.mp h1
      exact (hnd.mem_erase_iff.mp h2).1 rfl
    · intro hres
      by_cases hp : (check_markers_trace ds 10
          (shuffle ((Context.from_dict entity.context).task_ids.erase async_id))).1 = true
      · rw [hprobed, check_markers_trace_true_probes ds 10 (by omega) _ hp,
          chunks_flatten 10 (by omega)]
        exact hs _
      · rw [completion_checker_notComplete shuffle ds async_id cid entity hctx hm
          (Bool.not_eq_true _ ▸ hp)] at hres
        simp at hres

/-- Witness for C5: on `dsRun` the probed batches of a check triggered by
async `1` never contain `1`. -/
theorem completion_checker_probe_set_witness :
    (1 : Nat) ∉ (_completion_checker (fun l => l) dsRun 1 (some 0)).probed.flatten :=
  (completion_checker_probe_set (fun l => l) dsRun 1 0 ⟨⟨0, [1, 2]⟩⟩
    (fun l => List.Perm.refl l) (by decide)).1 (by decide)

/-- C9: the winning invocation schedules cleanup over the context object's
mutated `task_ids` — the shuffled list with the triggering `async_id`
removed — so (for distinct task ids) the trigger's own marker is never among
the keys the scheduled cleanup will delete. -/
theorem cleanup_excludes_trigger (shuffle : List α → List α) (ds : Datastore α)
    (async_id cid : α) (entity : FuriousContext α) (t : CleanupTask α)
    (hs : ∀ l : List α, (shuffle l).Perm l)
    (hctx : ds.contexts cid = some entity)
    (hcl : (_completion_checker shuffle ds async_id (some cid)).cleanup = some t) :
    t.task_ids.Perm ((Context.from_dict entity.context).task_ids.erase async_id)
    ∧ ((Context.from_dict entity.context).task_ids.Nodup → async_id ∉ t.task_ids)
    ∧ t.context_id = (Context.from_dict entity.context).id
    ∧ t.countdown = 7200 := by
  by_cases hm : markerComplete (ds.completionMarkers cid) = true
  · rw [completion_checker_already shuffle ds async_id cid entity hctx hm] at hcl
    simp at hcl
  · by_cases hp : (check_markers_trace ds 10
        (shuffle ((Context.from_dict entity.context).task_ids.erase async_id))).1 = true
    · by_cases hg : (_mark_context_complete ds (ds.completionMarkers cid)
          (Context.from_dict entity.context) cid).1 = true
      · rw [completion_checker_win shuffle ds async_id cid entity hctx hm hp hg] at hcl
        obtain rfl := Option.some.inj hcl
        refine ⟨hs _, ?_, rfl, rfl⟩
        intro hnd hmem
        have h2 : async_id ∈ (Context.from_dict entity.context).task_ids.erase async_id :=
          (hs _).mem_iff.mp hmem
        exact (hnd.mem_erase_iff.mp h2).1 rfl
      · rw [completion_checker_lose shuffle ds async_id cid entity hctx hm hp
          (Bool.not_eq_true _ ▸ hg)] at hcl
        simp at hcl
    · rw [completion_checker_notComplete shuffle ds async_id cid entity hctx hm
        (Bool.not_eq_true _ ▸ hp)] at hcl
      simp at hcl

/-- Witness for C9: the cleanup task the winner schedules on `dsRun` carries
task ids `[2]`, excluding the triggering async `1`. -/
theorem cleanup_excludes_trigger_witness :
    (1 : Nat) ∉ (⟨0, [2], 7200⟩ : CleanupTask Nat).task_ids :=
  (cleanup_excludes_trigger (fun l => l) dsRun 1 0 ⟨⟨0, [1, 2]⟩⟩ ⟨0, [2], 7200⟩
    (fun l => List.Perm.refl l) (by decide) (by decide)).2.1 (by decide)

/-- Witness for the amended C7 on `dsRun`: after cleanup the gate is gone and
the marker probe reports not-all-present. -/
theorem cleanup_markers_spec_witness :
    (_cleanup_markers dsRun 0 [1, 2]).completionMarkers 0 = none
    ∧ (check_markers_trace (_cleanup_markers dsRun 0 [1, 2]) 10 [1, 2]).1 = false :=
  ⟨(cleanup_markers_spec dsRun 0 [1, 2] 10 (by decide) (by decide)).2.1,
   (cleanup_markers_spec dsRun 0 [1, 2] 10 (by decide) (by decide)).2.2.1⟩
